import Mathlib

/-!
Shallow embedding of the fsm package (src/fsm.go): states, guards,
transitions, rule sets, permission checking and the machine, together
with theorems checking the specification's claims about them.
-/

/-- State models the Go type State, an integer identifier. -/
abbrev State := Int

/-- Stater models a value implementing the Go Stater interface: it carries
a current state, plus a log of the SetState calls it has received, so that
claims about when SetState is invoked are expressible in a pure setting. -/
structure Stater where
  state : State
  setLog : List State
deriving DecidableEq

/-- CurrentState models the Stater method CurrentState. -/
def Stater.CurrentState (s : Stater) : State := s.state

/-- SetState models the Stater method SetState: the state becomes the goal
and the call is recorded in the log. -/
def Stater.SetState (s : Stater) (goal : State) : Stater :=
  ⟨goal, s.setLog ++ [goal]⟩

/-- Guard models the Go type Guard, a predicate over a subject and a goal
state. -/
abbrev Guard := Stater → State → Bool

/-- Transition models a comparable Go value implementing the Transition
interface, as it is stored in an interface-keyed map: Go compares the
dynamic type first and then the underlying value. The constructor T models
the library's own struct T with fields O and E; the constructor other
models a value of any other concrete implementation, identified by a tag
for its dynamic type together with its Origin and Exit states. -/
inductive Transition where
  | T (o e : State) : Transition
  | other (tag : Nat) (o e : State) : Transition
deriving DecidableEq

/-- Origin models the Transition method Origin. -/
def Transition.Origin : Transition → State
  | .T o _ => o
  | .other _ o _ => o

/-- Exit models the Transition method Exit. -/
def Transition.Exit : Transition → State
  | .T _ e => e
  | .other _ _ e => e

/-- RuleSet models the Go map from Transition to a Guard slice, as an
association list with at most one entry per key. -/
abbrev RuleSet := List (Transition × List Guard)

/-- mapLookup models a Go map read together with its ok flag. -/
def mapLookup : RuleSet → Transition → Option (List Guard)
  | [], _ => none
  | (k, v) :: rest, t => if k = t then some v else mapLookup rest t

/-- mapSet models a Go map write: it replaces the entry for the key when
present and inserts a fresh entry otherwise. -/
def mapSet : RuleSet → Transition → List Guard → RuleSet
  | [], t, v => [(t, v)]
  | (k, w) :: rest, t, v =>
      if k = t then (k, v) :: rest else (k, w) :: mapSet rest t v

/-- lookupGuards models a Go map read without the ok flag: a missing key
reads as the nil slice. -/
def lookupGuards (r : RuleSet) (k : Transition) : List Guard :=
  (mapLookup r k).getD []

/-- AddRule models the RuleSet method AddRule: the loop appends each guard
in turn to the slice under the transition key, and appending to a missing
key creates its entry; with zero guards the loop body never runs. -/
def RuleSet.AddRule : RuleSet → Transition → List Guard → RuleSet
  | r, _, [] => r
  | r, t, g :: gs => RuleSet.AddRule (mapSet r t (lookupGuards r t ++ [g])) t gs

/-- defaultGuard is the closure that AddTransition attaches: the subject's
current state must equal the transition's origin. -/
def defaultGuard (t : Transition) : Guard :=
  fun subject _goal => decide (subject.CurrentState = t.Origin)

/-- AddTransition models the RuleSet method AddTransition: AddRule with the
single default guard. -/
def RuleSet.AddTransition (r : RuleSet) (t : Transition) : RuleSet :=
  RuleSet.AddRule r t [defaultGuard t]

/-- CreateRuleSet models CreateRuleSet: start from the empty map and add a
default transition for each argument, in order. -/
def CreateRuleSet (transitions : List Transition) : RuleSet :=
  transitions.foldl (fun r t => RuleSet.AddTransition r t) []

/-- launch models the fan-out inside Permitted: one goroutine per guard,
each evaluating its guard on the subject and goal and sending the result
on the channel; nothing ever stops a launched goroutine, so every launched
evaluation contributes a result. -/
def launch (guards : List Guard) (subject : Stater) (goal : State) : List Bool :=
  guards.map (fun g => g subject goal)

/-- drain models the receive loop inside Permitted over the results in
their arrival order: it returns the decision together with how many
results were consumed; a false result returns immediately, otherwise one
result per launched guard is awaited. -/
def drain : List Bool → Bool × Nat
  | [] => (true, 0)
  | o :: rest => if o then ((drain rest).1, (drain rest).2 + 1) else (false, 1)

/-- Permitted models the RuleSet method Permitted: build the attempt key
T with the subject's current state and the goal, look it up; when absent
the transition is denied; when present launch every guard and drain the
results. The drain outcome does not depend on the arrival order (see the
concurrency theorem below), so the launch order is used here. -/
def RuleSet.Permitted (r : RuleSet) (subject : Stater) (goal : State) : Bool :=
  match mapLookup r (Transition.T subject.CurrentState goal) with
  | some guards => (drain (launch guards subject goal)).1
  | none => false

/-- GoError models a Go error value by its message. -/
structure GoError where
  msg : String
deriving DecidableEq

/-- ErrInvalidTransition models the sentinel error for a denied transition. -/
def ErrInvalidTransition : GoError := ⟨"invalid transition"⟩

/-- Machine models Machine: a rule set paired with a subject. -/
structure Machine where
  Rules : RuleSet
  Subject : Stater

/-- Transition models the Machine method Transition: the returned error
(none stands for a nil Go error) together with the machine after the call,
since the Go method mutates its subject in place. -/
def Machine.Transition (m : Machine) (goal : State) : Option GoError × Machine :=
  if RuleSet.Permitted m.Rules m.Subject goal then
    (none, ⟨m.Rules, m.Subject.SetState goal⟩)
  else
    (some ErrInvalidTransition, m)

/-- New models New: pair the rules with the subject. -/
def New (rules : RuleSet) (subject : Stater) : Machine :=
  ⟨rules, subject⟩

/-- specManualRuleSet follows the specification's words for the claim about
CreateRuleSet: starting from a given RuleSet, call AddTransition for each
transition, one call after the other. -/
def specManualRuleSet : RuleSet → List Transition → RuleSet
  | r, [] => r
  | r, t :: ts => specManualRuleSet (RuleSet.AddTransition r t) ts

/-- gTrue is a guard that always accepts. -/
def gTrue : Guard := fun _ _ => true

/-- gFalse is a guard that always rejects. -/
def gFalse : Guard := fun _ _ => false

/-- stater0 is a subject currently at state 0 with an empty SetState log. -/
def stater0 : Stater := ⟨0, []⟩

theorem mapLookup_mapSet_self (r : RuleSet) (t : Transition) (v : List Guard) :
    mapLookup (mapSet r t v) t = some v := by
  induction r with
  | nil => simp [mapSet, mapLookup]
  | cons kv rest ih =>
    obtain ⟨k, w⟩ := kv
    by_cases h : k = t
    · simp [mapSet, mapLookup, h]
    · simp [mapSet, mapLookup, h, ih]

theorem mapLookup_mapSet_ne (r : RuleSet) (t k : Transition) (v : List Guard)
    (h : k ≠ t) : mapLookup (mapSet r t v) k = mapLookup r k := by
  induction r with
  | nil =>
    simp [mapSet, mapLookup, Ne.symm h]
  | cons kv rest ih =>
    obtain ⟨k0, w⟩ := kv
    by_cases h0 : k0 = t
    · subst h0
      simp [mapSet, mapLookup, Ne.symm h]
    · simp [mapSet, mapLookup, h0, ih]

theorem lookupGuards_mapSet_self (r : RuleSet) (t : Transition) (v : List Guard) :
    lookupGuards (mapSet r t v) t = v := by
  simp [lookupGuards, mapLookup_mapSet_self]

theorem AddRule_mapLookup_ne (gs : List Guard) (r : RuleSet) (t k : Transition)
    (h : k ≠ t) : mapLookup (RuleSet.AddRule r t gs) k = mapLookup r k := by
  induction gs generalizing r with
  | nil => rfl
  | cons g gs ih =>
    rw [RuleSet.AddRule, ih, mapLookup_mapSet_ne _ _ _ _ h]

theorem AddRule_lookupGuards_self (gs : List Guard) (r : RuleSet) (t : Transition) :
    lookupGuards (RuleSet.AddRule r t gs) t = lookupGuards r t ++ gs := by
  induction gs generalizing r with
  | nil => simp [RuleSet.AddRule]
  | cons g gs ih =>
    rw [RuleSet.AddRule, ih, lookupGuards_mapSet_self, List.append_assoc,
      List.singleton_append]

theorem AddRule_mapLookup_some (gs : List Guard) (r : RuleSet) (t : Transition)
    (v : List Guard) (h : mapLookup r t = some v) :
    mapLookup (RuleSet.AddRule r t gs) t = some (v ++ gs) := by
  induction gs generalizing r v with
  | nil => simpa [RuleSet.AddRule] using h
  | cons g gs ih =>
    rw [RuleSet.AddRule]
    have hv : lookupGuards r t = v := by simp [lookupGuards, h]
    rw [hv, ih _ _ (mapLookup_mapSet_self r t (v ++ [g])),
      List.append_assoc, List.singleton_append]

theorem AddRule_cons_mapLookup (g : Guard) (gs : List Guard) (r : RuleSet)
    (t : Transition) :
    mapLookup (RuleSet.AddRule r t (g :: gs)) t =
      some (lookupGuards r t ++ (g :: gs)) := by
  rw [RuleSet.AddRule,
    AddRule_mapLookup_some gs _ t _ (mapLookup_mapSet_self r t (lookupGuards r t ++ [g])),
    List.append_assoc, List.singleton_append]

theorem AddTransition_mapLookup_self (r : RuleSet) (t : Transition) :
    mapLookup (RuleSet.AddTransition r t) t =
      some (lookupGuards r t ++ [defaultGuard t]) :=
  AddRule_cons_mapLookup (defaultGuard t) [] r t

theorem drain_fst (l : List Bool) : (drain l).1 = l.all id := by
  induction l with
  | nil => rfl
  | cons b rest ih => cases b <;> simp [drain, ih]

theorem drain_snd_of_true (l : List Bool) (h : (drain l).1 = true) :
    (drain l).2 = l.length := by
  induction l with
  | nil => rfl
  | cons b rest ih =>
    cases b
    · simp [drain] at h
    · simp only [drain, if_pos] at h ⊢
      simp [ih h]

theorem Permitted_of_mapLookup_none (r : RuleSet) (s : Stater) (goal : State)
    (h : mapLookup r (Transition.T s.CurrentState goal) = none) :
    RuleSet.Permitted r s goal = false := by
  simp [RuleSet.Permitted, h]

theorem launch_all (gs : List Guard) (s : Stater) (goal : State) :
    (launch gs s goal).all id = gs.all (fun g => g s goal) := by
  induction gs with
  | nil => rfl
  | cons g gs ih =>
    simp only [launch] at ih
    simp [launch, ih]

theorem Permitted_of_mapLookup_some (r : RuleSet) (s : Stater) (goal : State)
    (gs : List Guard) (h : mapLookup r (Transition.T s.CurrentState goal) = some gs) :
    RuleSet.Permitted r s goal = gs.all (fun g => g s goal) := by
  simp [RuleSet.Permitted, h, drain_fst, launch_all]

theorem foldT_lookupGuards (ps : List (State × State)) (r : RuleSet) (k : Transition) :
    lookupGuards
        (ps.foldl (fun r p => RuleSet.AddTransition r (Transition.T p.1 p.2)) r) k =
      lookupGuards r k ++
        List.replicate
          (ps.countP (fun p => decide (Transition.T p.1 p.2 = k)))
          (defaultGuard k) := by
  induction ps generalizing r with
  | nil => simp
  | cons p ps ih =>
    simp only [List.foldl_cons]
    rw [ih]
    by_cases h : Transition.T p.1 p.2 = k
    · rw [List.countP_cons_of_pos _ _ (by simpa using h)]
      subst h
      rw [RuleSet.AddTransition, AddRule_lookupGuards_self,
        List.replicate_succ, List.append_assoc, List.singleton_append]
    · rw [List.countP_cons_of_neg _ _ (by simpa using h)]
      have hk : k ≠ Transition.T p.1 p.2 := Ne.symm h
      rw [RuleSet.AddTransition]
      unfold lookupGuards
      rw [AddRule_mapLookup_ne _ _ _ _ hk]

theorem foldT_mapLookup_none_iff (ps : List (State × State)) (r : RuleSet)
    (k : Transition) :
    mapLookup
        (ps.foldl (fun r p => RuleSet.AddTransition r (Transition.T p.1 p.2)) r) k =
        none ↔
      mapLookup r k = none ∧ ∀ p ∈ ps, Transition.T p.1 p.2 ≠ k := by
  induction ps generalizing r with
  | nil => simp
  | cons p ps ih =>
    simp only [List.foldl_cons]
    rw [ih]
    constructor
    · rintro ⟨h1, h2⟩
      by_cases h : Transition.T p.1 p.2 = k
      · subst h
        rw [RuleSet.AddTransition, AddRule_cons_mapLookup] at h1
        exact absurd h1 (by simp)
      · rw [RuleSet.AddTransition, AddRule_mapLookup_ne _ _ _ _ (Ne.symm h)] at h1
        exact ⟨h1, by simpa [h] using h2⟩
    · rintro ⟨h1, h2⟩
      have hp : Transition.T p.1 p.2 ≠ k := h2 p (by simp)
      refine ⟨?_, fun q hq => h2 q (by simp [hq])⟩
      rw [RuleSet.AddTransition, AddRule_mapLookup_ne _ _ _ _ (Ne.symm hp)]
      exact h1

/-- C1: Machine.Transition returns a nil error if and only if Permitted
accepts the move, returns the sentinel ErrInvalidTransition if and only if
Permitted denies it, and the subject after the call is SetState(goal) of
the old subject exactly on an accepted move and the untouched old subject
(same state, same SetState log) on a denied one. -/
theorem machine_transition_iff_permitted (m : Machine) (goal : State) :
    ((m.Transition goal).1 = none ↔
        RuleSet.Permitted m.Rules m.Subject goal = true) ∧
    ((m.Transition goal).1 = some ErrInvalidTransition ↔
        RuleSet.Permitted m.Rules m.Subject goal = false) ∧
    (m.Transition goal).2.Subject =
      (if RuleSet.Permitted m.Rules m.Subject goal then m.Subject.SetState goal
       else m.Subject) := by
  cases h : RuleSet.Permitted m.Rules m.Subject goal <;>
    simp [Machine.Transition, h]

/-- C2: when the attempt key built from the subject's current state and the
goal has no entry in the rule set, Permitted returns false, whatever guards
are registered under any other key. -/
theorem permitted_false_of_no_rule (r : RuleSet) (s : Stater) (goal : State)
    (h : mapLookup r (Transition.T s.CurrentState goal) = none) :
    RuleSet.Permitted r s goal = false :=
  Permitted_of_mapLookup_none r s goal h

/-- Witness for C2: a rule set whose only entry sits under another key still
denies the unregistered attempt from state 0 to state 1. -/
theorem permitted_false_of_no_rule_witness :
    mapLookup [(Transition.T 5 6, [gFalse])]
        (Transition.T stater0.CurrentState 1) = none ∧
    RuleSet.Permitted [(Transition.T 5 6, [gFalse])] stater0 1 = false :=
  ⟨rfl, permitted_false_of_no_rule [(Transition.T 5 6, [gFalse])] stater0 1 rfl⟩

/-- C3: when the attempt key has a registered guard list, Permitted returns
true exactly when every guard in that list accepts the subject and goal;
a single rejecting guard therefore makes the conjunction false. -/
theorem permitted_iff_all_guards (r : RuleSet) (s : Stater) (goal : State)
    (gs : List Guard)
    (h : mapLookup r (Transition.T s.CurrentState goal) = some gs) :
    (RuleSet.Permitted r s goal = true ↔ ∀ g ∈ gs, g s goal = true) := by
  rw [Permitted_of_mapLookup_some r s goal gs h, List.all_eq_true]

/-- Witness for C3: with guards gTrue and gFalse registered for the move
from 0 to 1, the conjunction fails, and Permitted indeed returns false. -/
theorem permitted_iff_all_guards_witness :
    mapLookup [(Transition.T 0 1, [gTrue, gFalse])]
        (Transition.T stater0.CurrentState 1) = some [gTrue, gFalse] ∧
    (RuleSet.Permitted [(Transition.T 0 1, [gTrue, gFalse])] stater0 1 = true ↔
        ∀ g ∈ [gTrue, gFalse], g stater0 1 = true) ∧
    RuleSet.Permitted [(Transition.T 0 1, [gTrue, gFalse])] stater0 1 = false ∧
    RuleSet.Permitted [(Transition.T 0 1, [gTrue, gTrue])] stater0 1 = true :=
  ⟨rfl,
   permitted_iff_all_guards [(Transition.T 0 1, [gTrue, gFalse])] stater0 1
     [gTrue, gFalse] rfl,
   by decide, by decide⟩

/-- C4 counterexample: a transition of a concrete type other than T, with
Origin 0 and Exit 1, registered via AddTransition into an otherwise empty
rule set. The subject sits at state 0, so a registered transition has
Origin equal to the current state and Exit equal to the goal, yet
Permitted returns false: the lookup key Permitted builds is the struct T,
which never equals an interface value of a different dynamic type. -/
theorem addTransition_other_type_denied :
    (Transition.other 0 0 1).Origin = stater0.CurrentState ∧
    (Transition.other 0 0 1).Exit = (1 : State) ∧
    RuleSet.Permitted (RuleSet.AddTransition [] (Transition.other 0 0 1))
      stater0 1 = false :=
  ⟨rfl, rfl, by decide⟩

/-- C4 amended: AddTransition attaches exactly one guard, the default
guard, under the registered transition key; and for a rule set built only
from AddTransition over transitions of the concrete struct type T,
Permitted is true exactly when some registered transition has Origin equal
to the subject's current state and Exit equal to the goal. For other
concrete Transition implementations the rule is never found, because the
lookup key has dynamic type T. -/
theorem addTransition_default_guard_permitted (r : RuleSet) (t : Transition)
    (ps : List (State × State)) (s : Stater) (goal : State) :
    lookupGuards (RuleSet.AddTransition r t) t =
      lookupGuards r t ++ [defaultGuard t] ∧
    (RuleSet.Permitted
        (CreateRuleSet (ps.map fun p => Transition.T p.1 p.2)) s goal = true ↔
      ∃ p ∈ ps, p.1 = s.CurrentState ∧ p.2 = goal) := by
  refine ⟨AddRule_lookupGuards_self [defaultGuard t] r t, ?_⟩
  rw [CreateRuleSet, List.foldl_map]
  cases h : mapLookup
      (ps.foldl (fun r p => RuleSet.AddTransition r (Transition.T p.1 p.2)) [])
      (Transition.T s.CurrentState goal) with
  | none =>
    rw [Permitted_of_mapLookup_none _ _ _ h]
    have hnone := (foldT_mapLookup_none_iff ps []
      (Transition.T s.CurrentState goal)).mp h
    refine iff_of_false (by simp) ?_
    rintro ⟨p, hp, h1, h2⟩
    exact hnone.2 p hp (by rw [h1, h2])
  | some gs =>
    rw [Permitted_of_mapLookup_some _ _ _ _ h]
    have hgs : gs = List.replicate
        (ps.countP (fun p =>
          decide (Transition.T p.1 p.2 = Transition.T s.CurrentState goal)))
        (defaultGuard (Transition.T s.CurrentState goal)) := by
      have := foldT_lookupGuards ps [] (Transition.T s.CurrentState goal)
      rw [lookupGuards, h] at this
      simpa [lookupGuards, mapLookup] using this
    have hex : ∃ p ∈ ps,
        Transition.T p.1 p.2 = Transition.T s.CurrentState goal := by
      by_contra hc
      push_neg at hc
      have : mapLookup
          (ps.foldl (fun r p => RuleSet.AddTransition r (Transition.T p.1 p.2)) [])
          (Transition.T s.CurrentState goal) = none :=
        (foldT_mapLookup_none_iff ps [] _).mpr ⟨rfl, hc⟩
      rw [this] at h
      exact absurd h (by simp)
    have hall : gs.all (fun g => g s goal) = true := by
      rw [hgs, List.all_eq_true]
      intro g hg
      rw [List.eq_of_mem_replicate hg]
      simp [defaultGuard, Transition.Origin]
    rw [hall]
    simp only [true_iff]
    obtain ⟨p, hp, hpe⟩ := hex
    exact ⟨p, hp, by injection hpe, by injection hpe with h1 h2⟩

/-- C5 counterexample: AddRule with zero guards on an empty rule set does
not create an entry for the transition, and the matching Permitted call
returns false, where the claim expects an empty-guard entry and a vacuous
true. In the source the map write sits inside the loop over the guards, so
with zero guards nothing is written. -/
theorem addRule_no_guards_no_entry :
    mapLookup (RuleSet.AddRule [] (Transition.T 0 1) [])
      (Transition.T 0 1) = none ∧
    RuleSet.Permitted (RuleSet.AddRule [] (Transition.T 0 1) [])
      stater0 1 = false :=
  ⟨rfl, rfl⟩

/-- C5 amended: AddRule with zero guards is a no-op, so a previously absent
transition stays absent and the matching Permitted call still returns
false; only a key that is actually present with an empty guard list
decides the transition by a vacuous conjunction, and then Permitted
returns true, in contrast to the absent-key case. -/
theorem addRule_no_guards_noop (r : RuleSet) (t : Transition) (s : Stater)
    (goal : State) :
    RuleSet.AddRule r t [] = r ∧
    RuleSet.Permitted
      ((Transition.T s.CurrentState goal, ([] : List Guard)) :: r) s goal = true := by
  refine ⟨rfl, ?_⟩
  simp [RuleSet.Permitted, mapLookup, launch, drain]

/-- C6 counterexample: a guard registered under a Transition value whose
concrete type is not T, with Origin 0 and Exit 1. The subject sits at
state 0 and the goal is 1, so both components match the lookup pair, yet
Permitted neither finds nor evaluates the guard: the entry is present
under the other-typed key, the lookup under the T key returns nothing, and
Permitted returns false although the only registered guard accepts
everything. -/
theorem addRule_other_type_not_found :
    lookupGuards (RuleSet.AddRule [] (Transition.other 0 0 1) [gTrue])
      (Transition.other 0 0 1) = [gTrue] ∧
    (Transition.other 0 0 1).Origin = stater0.CurrentState ∧
    (Transition.other 0 0 1).Exit = (1 : State) ∧
    mapLookup (RuleSet.AddRule [] (Transition.other 0 0 1) [gTrue])
      (Transition.T stater0.CurrentState 1) = none ∧
    RuleSet.Permitted (RuleSet.AddRule [] (Transition.other 0 0 1) [gTrue])
      stater0 1 = false :=
  ⟨rfl, rfl, rfl, rfl, by decide⟩

/-- C6 amended: map keys of the concrete struct type T are equal exactly
when both components are equal, so guards registered via AddRule under a
T-typed transition are found by Permitted whenever the subject's current
state equals its origin and the goal equals its exit, and Permitted then
evaluates exactly that guard list; for a Transition value of any other
dynamic type the entry is never matched by Permitted's lookup key. -/
theorem addRule_T_key_found (r : RuleSet) (o e : State) (gs : List Guard)
    (s : Stater) (goal : State) (h1 : s.CurrentState = o) (h2 : goal = e)
    (h3 : gs ≠ []) :
    mapLookup (RuleSet.AddRule r (Transition.T o e) gs)
        (Transition.T s.CurrentState goal) =
      some (lookupGuards r (Transition.T o e) ++ gs) ∧
    RuleSet.Permitted (RuleSet.AddRule r (Transition.T o e) gs) s goal =
      (lookupGuards r (Transition.T o e) ++ gs).all (fun g => g s goal) := by
  subst h1
  subst h2
  obtain ⟨g, gs, rfl⟩ := List.exists_cons_of_ne_nil h3
  have hl := AddRule_cons_mapLookup g gs r (Transition.T s.CurrentState goal)
  exact ⟨hl, Permitted_of_mapLookup_some _ _ _ _ hl⟩

/-- Witness for C6 amended: the guard gTrue registered under the T-typed
transition from 0 to 1 is found and evaluated for a subject at state 0
asking for goal 1. -/
theorem addRule_T_key_found_witness :
    stater0.CurrentState = (0 : State) ∧ (1 : State) = 1 ∧
    ([gTrue] : List Guard) ≠ [] ∧
    (mapLookup (RuleSet.AddRule [] (Transition.T 0 1) [gTrue])
        (Transition.T stater0.CurrentState 1) =
      some (lookupGuards [] (Transition.T 0 1) ++ [gTrue]) ∧
    RuleSet.Permitted (RuleSet.AddRule [] (Transition.T 0 1) [gTrue]) stater0 1 =
      (lookupGuards [] (Transition.T 0 1) ++ [gTrue]).all (fun g => g stater0 1)) :=
  ⟨rfl, rfl, List.cons_ne_nil gTrue [],
   addRule_T_key_found [] 0 1 [gTrue] stater0 1 rfl rfl (List.cons_ne_nil gTrue [])⟩

/-- C7: CreateRuleSet over a list of transitions and the sequence of
AddTransition calls on an empty rule set described by the specification
give rule sets with the same Permitted outcome for every subject and goal;
in fact they build the same rule set. -/
theorem createRuleSet_eq_manual (ts : List Transition) (s : Stater)
    (goal : State) :
    RuleSet.Permitted (CreateRuleSet ts) s goal =
      RuleSet.Permitted (specManualRuleSet [] ts) s goal := by
  have hfold : ∀ (ts : List Transition) (r : RuleSet),
      ts.foldl (fun r t => RuleSet.AddTransition r t) r = specManualRuleSet r ts := by
    intro ts
    induction ts with
    | nil => intro r; rfl
    | cons t ts ih =>
      intro r
      rw [List.foldl_cons, ih, specManualRuleSet]
  rw [CreateRuleSet, hfold]

/-- C8: a rule set only grows. After AddRule the guard list under every
key extends the previous one by some suffix, the key that was written gets
exactly the argument guards appended in order, every other key keeps its
entry untouched, and AddTransition behaves the same way with the single
default guard. -/
theorem ruleSet_only_grows (r : RuleSet) (t : Transition) (gs : List Guard)
    (k : Transition) :
    (∃ tail, lookupGuards (RuleSet.AddRule r t gs) k = lookupGuards r k ++ tail) ∧
    lookupGuards (RuleSet.AddRule r t gs) t = lookupGuards r t ++ gs ∧
    (∃ tail, lookupGuards (RuleSet.AddTransition r t) k =
      lookupGuards r k ++ tail) ∧
    lookupGuards (RuleSet.AddTransition r t) t =
      lookupGuards r t ++ [defaultGuard t] := by
  refine ⟨?_, AddRule_lookupGuards_self gs r t, ?_,
    AddRule_lookupGuards_self [defaultGuard t] r t⟩
  · by_cases h : k = t
    · subst h
      exact ⟨gs, AddRule_lookupGuards_self gs r k⟩
    · refine ⟨[], ?_⟩
      rw [List.append_nil, lookupGuards, AddRule_mapLookup_ne _ _ _ _ h]
      rfl
  · by_cases h : k = t
    · subst h
      exact ⟨[defaultGuard k], AddRule_lookupGuards_self [defaultGuard k] r k⟩
    · refine ⟨[], ?_⟩
      rw [List.append_nil, RuleSet.AddTransition, lookupGuards,
        AddRule_mapLookup_ne _ _ _ _ h]
      rfl

/-- C9: the channel inside Permitted is modelled by the multiset of results
of the launched guard evaluations, every one of which runs to completion
and reports, so the drained arrival list is a permutation of the launched
results whatever the decision turns out to be. For every such arrival
order: the arrival list carries one completed result per launched guard,
the drain decides true exactly when every guard accepted, and a true
decision is only reached after consuming all results, while a false result
makes the drain return at once without consuming the stragglers, which
have still been evaluated. -/
theorem permitted_drain_concurrency (gs : List Guard) (s : Stater)
    (goal : State) (arrival : List Bool)
    (h : arrival.Perm (launch gs s goal)) :
    arrival.length = gs.length ∧
    ((drain arrival).1 = true ↔ ∀ g ∈ gs, g s goal = true) ∧
    ((drain arrival).1 = true → (drain arrival).2 = gs.length) := by
  have hlen : arrival.length = gs.length := by
    rw [h.length_eq]
    simp [launch]
  refine ⟨hlen, ?_, ?_⟩
  · rw [drain_fst, List.all_eq_true]
    constructor
    · intro ha g hg
      exact ha (g s goal) (h.mem_iff.mpr (by simp [launch]; exact ⟨g, hg, rfl⟩))
    · intro ha b hb
      obtain ⟨g, hg, rfl⟩ := by simpa [launch] using h.mem_iff.mp hb
      exact ha g hg
  · intro htrue
    rw [drain_snd_of_true _ htrue, hlen]

/-- Witness for C9: two guards are launched, gTrue and gFalse; the results
arrive in the order false then true, a permutation of the launched
results, and the drain decides false while both launched evaluations have
reported. -/
theorem permitted_drain_concurrency_witness :
    ([false, true] : List Bool).Perm (launch [gTrue, gFalse] stater0 0) ∧
    ([false, true] : List Bool).length = ([gTrue, gFalse] : List Guard).length ∧
    ((drain [false, true]).1 = true ↔
      ∀ g ∈ ([gTrue, gFalse] : List Guard), g stater0 0 = true) ∧
    (drain [false, true]).1 = false :=
  ⟨by decide,
   (permitted_drain_concurrency [gTrue, gFalse] stater0 0 [false, true]
      (by decide)).1,
   (permitted_drain_concurrency [gTrue, gFalse] stater0 0 [false, true]
      (by decide)).2.1,
   by decide⟩

/-- C10: in this pure embedding Permitted returns only the boolean
decision, so it can neither write the subject nor the rule set; the one
state change in the public interface is Machine.Transition, whose
resulting machine keeps the rule set unchanged, appends exactly one
SetState call with the goal to the subject's log on a permitted attempt
and none on a denied one, and moves the subject's state to the goal
exactly on a permitted attempt. -/
theorem machine_transition_frame (m : Machine) (goal : State) :
    (m.Transition goal).2.Rules = m.Rules ∧
    (m.Transition goal).2.Subject.setLog =
      m.Subject.setLog ++
        (if RuleSet.Permitted m.Rules m.Subject goal then [goal] else []) ∧
    (m.Transition goal).2.Subject.state =
      (if RuleSet.Permitted m.Rules m.Subject goal then goal
       else m.Subject.state) := by
  cases h : RuleSet.Permitted m.Rules m.Subject goal <;>
    simp [Machine.Transition, Stater.SetState, h]

